import Mathlib

/-!
Verification of the `mail-sink` HTTP request engine (`src/http.rs`).

This file gives a shallow embedding of the request engine: request-line
tokenisation, method parsing, URL/query parsing, the shared-secret access
gate, the router (`match_path`, `find_handler`, `build_routes`) and the
three handlers (`get_mail_handler`, `delete_mail_handler`,
`get_mails_handler`), followed by theorems about the embedded functions.

Modelling notes, stated once here:
* Rust `String`/`&str` values are Lean `String` (a list of characters);
  the engine only compares ASCII data byte-for-byte, so character-level
  equality coincides with byte-level equality on the inputs involved.
* The sled database is an association list in ascending key order; sled's
  `iter()` yields entries in exactly that order.  I/O failures of the
  engine are environmental and are not modelled: in the pure model every
  sled call returns `Ok`.  `delete_mail_handler` branches on the `Result`
  of `Db::remove`, so its core is additionally modelled as a function of
  an arbitrary `Result` (`delete_mail_response`) to state how each outcome
  is reported.
* The `Mail` struct lives in `src/smtp.rs`, which is not part of the
  sources; it is modelled from the spec (§3).  `bincode` bytes for a mail
  are abstracted as `Option Mail`: `some m` stands for bytes that
  deserialize to `m`, `none` for bytes on which `bincode::deserialize`
  fails.  JSON serialisation (`serde_json::to_string`) is modelled by a
  concrete encoder in spec field order.
* A connection's observable outcome is an `HttpResult`: either the socket
  was shut down with zero response bytes written (`silentClose`), a list
  of chunks was written (`wrote`), the task panicked (`panicked`, from
  `unwrap()` failures), or the function returned `Err` before writing
  anything (`errored`).
-/

/-- The HTTP methods of `enum Method` in `src/http.rs`. -/
inductive Method where
  | GET
  | POST
  | PUT
  | DELETE
deriving DecidableEq, Repr

/-- Uppercase an ASCII character, modelling `str::to_uppercase` on the
ASCII strings the method matcher compares against. -/
def toUpperAscii (s : String) : String :=
  String.mk (s.toList.map Char.toUpper)

/-- `Method::from_str`: case-insensitive match of the method token against
the fixed set, `None` otherwise (`src/http.rs:27-35`). -/
def Method.from_str (method : String) : Option Method :=
  match toUpperAscii method with
  | "GET" => some Method.GET
  | "POST" => some Method.POST
  | "PUT" => some Method.PUT
  | "DELETE" => some Method.DELETE
  | _ => none

/-- Modelled from the spec: the `Mail` record of `src/smtp.rs` (absent from
the sources), fields as in spec §3: id, from, to, subject, body,
received_at. -/
structure Mail where
  id : String
  «from» : String
  «to» : List String
  subject : String
  body : String
  received_at : Nat
deriving DecidableEq, Repr

/-- Modelled from the spec: the persisted `bincode` encoding of a `Mail`
(the encoder lives in the missing `src/smtp.rs`).  A stored value is
abstracted by its decoding behaviour: `some m` are bytes that decode to
`m`, `none` are corrupt bytes. -/
abbrev StoredVal := Option Mail

/-- `bincode::deserialize::<Mail>` on a stored value (abstracted as
explained at `StoredVal`). -/
def deserializeMail : StoredVal → Except Unit Mail
  | some m => Except.ok m
  | none => Except.error ()

/-- The sled database: an association list of (key, stored value) in
ascending key order — the order `Db::iter` yields. -/
abbrev Db := List (String × StoredVal)

/-- `Db::get`: look up a key (`src/http.rs:212`). -/
def Db.get (db : Db) (id : String) : Option StoredVal :=
  (db.find? (fun e => e.1 = id)).map (fun e => e.2)

/-- The value `Db::remove` returns inside `Ok`: the previously stored
value, if any (`src/http.rs:244`). -/
def Db.removePrev (db : Db) (id : String) : Option StoredVal :=
  Db.get db id

/-- I/O failures of the sled engine (never produced by the pure model). -/
inductive IoError where
  | ioFailure
deriving DecidableEq, Repr

/-- `is_ok()` on a `Result`. -/
def is_ok {ε α : Type} : Except ε α → Bool
  | Except.ok _ => true
  | Except.error _ => false

/-- `Db::remove` as called by the delete handler: in the pure model sled
always reports `Ok` with the previous value (I/O failure is environmental). -/
def sledRemove (db : Db) (id : String) : Except IoError (Option StoredVal) :=
  Except.ok (Db.removePrev db id)

/-- Lookup in a `HashMap<String, String>` built by inserting the pairs in
list order: insertion overwrites, so the last pair with the key wins. -/
def mapGet (pairs : List (String × String)) (k : String) : Option String :=
  (pairs.reverse.find? (fun p => p.1 = k)).map (fun p => p.2)

/-- Drop the trailing characters of `l` satisfying `p`; the character-list
form of Rust `str::trim_end_matches` / `str::trim_end`. -/
def dropTrailing (p : Char → Bool) (l : List Char) : List Char :=
  (l.reverse.dropWhile p).reverse

/-- `str::trim_end`: drop trailing whitespace (`src/http.rs:75`). -/
def trimEnd (s : String) : String :=
  String.mk (dropTrailing Char.isWhitespace s.toList)

/-- Accumulator loop behind `splitWhitespace`: `acc` holds the reversed
characters of the token being read. -/
def splitWSAux : List Char → List Char → List String
  | [], acc => if acc = [] then [] else [String.mk acc.reverse]
  | c :: cs, acc =>
      if c.isWhitespace then
        if acc = [] then splitWSAux cs []
        else String.mk acc.reverse :: splitWSAux cs []
      else splitWSAux cs (c :: acc)

/-- `str::split_whitespace`: the list of maximal non-whitespace runs
(`src/http.rs:76`). -/
def splitWhitespace (s : String) : List String :=
  splitWSAux s.toList []

/-- Split a character list at the first occurrence of `c`: the part
before it, and (when `c` occurs) the part after it. -/
def splitFirst (c : Char) : List Char → List Char × Option (List Char)
  | [] => ([], none)
  | x :: xs =>
      if x = c then ([], some xs)
      else ((splitFirst c xs).1.cons x, (splitFirst c xs).2)

/-- Worker for splitting on a separator character: returns the first
segment and the list of remaining segments. -/
def splitAux (c : Char) : List Char → List Char × List (List Char)
  | [] => ([], [])
  | a :: rest =>
      if a = c then ([], (splitAux c rest).1 :: (splitAux c rest).2)
      else ((splitAux c rest).1.cons a, (splitAux c rest).2)

/-- `str::split(c)`: split on every occurrence of `c`, keeping empty
segments (so splitting the empty list yields one empty segment), exactly
as Rust's `split` iterator does. -/
def splitOnChar (c : Char) (l : List Char) : List (List Char) :=
  (splitAux c l).1 :: (splitAux c l).2

/-- Numeric value of a hexadecimal digit. -/
def hexVal (c : Char) : Option Nat :=
  if '0' ≤ c ∧ c ≤ '9' then some (c.toNat - 48)
  else if 'a' ≤ c ∧ c ≤ 'f' then some (c.toNat - 87)
  else if 'A' ≤ c ∧ c ≤ 'F' then some (c.toNat - 55)
  else none

/-- Percent-decoding of a query component as done by
`form_urlencoded::parse`: `+` becomes a space and `%hh` becomes the byte
`hh` (multi-byte UTF-8 reassembly of decoded bytes is not modelled; the
engine's comparisons involve ASCII only). -/
def percentDecode : List Char → List Char
  | [] => []
  | '%' :: a :: b :: rest =>
      match hexVal a, hexVal b with
      | some x, some y => Char.ofNat (16 * x + y) :: percentDecode rest
      | _, _ => '%' :: percentDecode (a :: b :: rest)
  | '+' :: rest => ' ' :: percentDecode rest
  | c :: rest => c :: percentDecode rest

/-- `form_urlencoded::parse` of a raw query string: split on `&`, skip
empty pieces, split each piece at the first `=` (missing value means
empty), percent-decode names and values (`src/http.rs:94-96`). -/
def parseQueryPairs (q : List Char) : List (String × String) :=
  ((splitOnChar '&' q).filter (fun piece => piece ≠ [])).map
    (fun piece =>
      (String.mk (percentDecode (splitFirst '=' piece).1),
       String.mk (percentDecode (((splitFirst '=' piece).2).getD []))))

/-- `Url::parse("http://localhost" + path_and_query)` followed by
`.path()` and `.query()` (`src/http.rs:92-96`), for origin-form request
targets (a path starting with `/`, no dot segments — the only form the
engine is specified for): everything from the first `#` on is the
fragment and is dropped; the remainder splits at the first `?` into the
raw path and the raw query (absent query behaves as `""` per the code's
`unwrap_or("")`). -/
def parseUrl (path_and_query : String) : String × List (String × String) :=
  (String.mk (splitFirst '?' (splitFirst '#' path_and_query.toList).1).1,
   parseQueryPairs (((splitFirst '?' (splitFirst '#' path_and_query.toList).1).2).getD []))

/-- The zip loop of `match_path` (`src/http.rs:188-195`): a route segment
starting with `:` binds the request segment under the name after the
colons (`trim_start_matches(':')`); any other segment must be equal.
Parameters are accumulated in insertion order (`HashMap::insert`
overwrites, which `mapGet` reflects by taking the last pair). -/
def matchLoop : List (List Char × List Char) → List (String × String) → Option (List (String × String))
  | [], params => some params
  | (rp, qp) :: rest, params =>
      if rp.head? = some ':' then
        matchLoop rest (params ++ [(String.mk (rp.dropWhile (fun c => c = ':')), String.mk qp)])
      else if rp = qp then matchLoop rest params
      else none

/-- `match_path` (`src/http.rs:178-198`): trim every trailing `/` from
both the route pattern and the request path (`trim_end_matches('/')`),
split both on `/`, require equal segment counts, then run the zip loop. -/
def match_path (route_path request_path : String) : Option (List (String × String)) :=
  if (splitOnChar '/' (dropTrailing (fun c => c = '/') route_path.toList)).length
      ≠ (splitOnChar '/' (dropTrailing (fun c => c = '/') request_path.toList)).length then
    none
  else
    matchLoop
      ((splitOnChar '/' (dropTrailing (fun c => c = '/') route_path.toList)).zip
        (splitOnChar '/' (dropTrailing (fun c => c = '/') request_path.toList)))
      []

/-- The three handler closures registered by `build_routes`, as tags. -/
inductive HandlerTag where
  | getMail
  | deleteMail
  | getMails
deriving DecidableEq, Repr

/-- The `Request` struct (`src/http.rs:51-56`). -/
structure Request where
  method : Method
  path : String
  query : List (String × String)
  params : List (String × String)

/-- The observable outcome of one connection: socket shut down with zero
response bytes (`silentClose`), chunks written by `write_all` calls
(`wrote`), a Rust panic from `unwrap()` (`panicked`), or an early `Err`
return before anything was written (`errored`). -/
inductive HttpResult where
  | silentClose
  | wrote (chunks : List String)
  | panicked
  | errored
deriving DecidableEq, Repr

/-- Total response bytes written for an outcome. -/
def bytesWritten : HttpResult → Nat
  | HttpResult.wrote chunks => (chunks.map String.utf8ByteSize).sum
  | _ => 0

/-- `build_routes` (`src/http.rs:136-159`), in registration order. -/
def build_routes : List (Method × String × HandlerTag) :=
  [(Method.GET, "/mails/:mail_id", HandlerTag.getMail),
   (Method.DELETE, "/mails/:mail_id", HandlerTag.deleteMail),
   (Method.GET, "/mails", HandlerTag.getMails)]

/-- `find_handler` (`src/http.rs:162-175`): first route in registration
order whose method equals the request method and whose pattern matches
the path. -/
def find_handler (routes : List (Method × String × HandlerTag)) (method : Method)
    (request_path : String) : Option (HandlerTag × List (String × String)) :=
  match routes with
  | [] => none
  | (route_method, route_path, handler) :: rest =>
      if method = route_method then
        match match_path route_path request_path with
        | some params => some (handler, params)
        | none => find_handler rest method request_path
      else find_handler rest method request_path

/-- Modelled from the spec: JSON string escaping as performed by
`serde_json` for the characters occurring in mail fields. -/
def escapeChar (c : Char) : String :=
  if c = '"' then "\\\""
  else if c = '\\' then "\\\\"
  else if c = '\n' then "\\n"
  else if c = '\r' then "\\r"
  else if c = '\t' then "\\t"
  else String.singleton c

/-- Modelled from the spec: a JSON string literal. -/
def jsonStr (s : String) : String :=
  "\"" ++ String.join (s.toList.map escapeChar) ++ "\""

/-- Modelled from the spec: a JSON array of strings. -/
def jsonStrArray (l : List String) : String :=
  "[" ++ String.intercalate "," (l.map jsonStr) ++ "]"

/-- Modelled from the spec: `serde_json::to_string` of one `Mail`
(the derive lives in the missing `src/smtp.rs`; fields in spec §3 order). -/
def mailToJson (m : Mail) : String :=
  "\x7b\"id\":" ++ jsonStr m.id ++
  ",\"from\":" ++ jsonStr m.«from» ++
  ",\"to\":" ++ jsonStrArray m.«to» ++
  ",\"subject\":" ++ jsonStr m.subject ++
  ",\"body\":" ++ jsonStr m.body ++
  ",\"received_at\":" ++ toString m.received_at ++ "\x7d"

/-- Modelled from the spec: `serde_json::to_string` of a `Vec<Mail>`. -/
def mailsToJson (ms : List Mail) : String :=
  "[" ++ String.intercalate "," (ms.map mailToJson) ++ "]"

/-- The chunks written for a JSON 200 response: status line, content type,
content length (`json.len()` is the UTF-8 byte length), blank line, body
(`src/http.rs:221-227` and `289-293`). -/
def jsonResponse (json : String) : List String :=
  ["HTTP/1.1 200 OK\r\n",
   "Content-Type: application/json\r\n",
   "Content-Length: " ++ toString json.utf8ByteSize ++ "\r\n",
   "\r\n",
   json]

/-- The single chunk written for an empty-body 200 (`src/http.rs:249`). -/
def okEmptyResponse : String := "HTTP/1.1 200 OK\r\n\r\n"

/-- The single chunk written for a 404 (`src/http.rs:122,229,251`). -/
def notFoundResponse : String := "HTTP/1.1 404 Not Found\r\n\r\n"

/-- The single chunk written for a 400 (`src/http.rs:128`). -/
def badRequestResponse : String := "HTTP/1.1 400 Bad Request\r\n\r\n"

/-- `str::parse::<usize>`: optional leading `+`, then one or more ASCII
digits, value within the 64-bit `usize` range; anything else fails. -/
def parseUsize (s : String) : Option Nat :=
  match s.toList with
  | '+' :: rest =>
      if rest ≠ [] ∧ rest.all Char.isDigit then
        if rest.foldl (fun acc c => acc * 10 + (c.toNat - 48)) 0 < 2 ^ 64 then
          some (rest.foldl (fun acc c => acc * 10 + (c.toNat - 48)) 0)
        else none
      else none
  | cs =>
      if cs ≠ [] ∧ cs.all Char.isDigit then
        if cs.foldl (fun acc c => acc * 10 + (c.toNat - 48)) 0 < 2 ^ 64 then
          some (cs.foldl (fun acc c => acc * 10 + (c.toNat - 48)) 0)
        else none
      else none

/-- `get_mail_handler` (`src/http.rs:202-233`): `unwrap()` the `mail_id`
path parameter, `Db::get`, on a present record deserialize (an error
aborts with `Err` before anything is written) and write the JSON 200
response; on an absent record write a 404. -/
def get_mail_handler (request : Request) (db : Db) : HttpResult :=
  match mapGet request.params "mail_id" with
  | none => HttpResult.panicked
  | some mail_id =>
      match Db.get db mail_id with
      | some data =>
          match deserializeMail data with
          | Except.error _ => HttpResult.errored
          | Except.ok mail => HttpResult.wrote (jsonResponse (mailToJson mail))
      | none => HttpResult.wrote [notFoundResponse]

/-- The response chunks of `delete_mail_handler` as a function of the
`Result` of `Db::remove` (`src/http.rs:248-252`): `is_ok()` means 200
with empty body, otherwise 404 with empty body. -/
def delete_mail_response (result : Except IoError (Option StoredVal)) : List String :=
  if is_ok result then [okEmptyResponse] else [notFoundResponse]

/-- `delete_mail_handler` (`src/http.rs:236-255`): `unwrap()` the
`mail_id` parameter, call `Db::remove`, report by `delete_mail_response`. -/
def delete_mail_handler (request : Request) (db : Db) : HttpResult :=
  match mapGet request.params "mail_id" with
  | none => HttpResult.panicked
  | some mail_id => HttpResult.wrote (delete_mail_response (sledRemove db mail_id))

/-- The collection loop of `get_mails_handler` (`src/http.rs:276-284`):
take the next entry, deserialize it (`?` aborts the listing), push the
mail, increment `count`, and stop once `count >= limit`.  The check runs
after the push, so even `limit = 0` collects one entry. -/
def listLoop (limit : Nat) : List (String × StoredVal) → Nat → Except Unit (List Mail)
  | [], _ => Except.ok []
  | e :: rest, count =>
      match deserializeMail e.2 with
      | Except.error err => Except.error err
      | Except.ok mail =>
          if count + 1 ≥ limit then Except.ok [mail]
          else
            match listLoop limit rest (count + 1) with
            | Except.error err => Except.error err
            | Except.ok mails => Except.ok (mail :: mails)

/-- `get_mails_handler` (`src/http.rs:257-297`): parse `limit` (default
string `"10"`) and `offset` (default string `"0"`) with `unwrap()` —
a failing parse panics; skip `offset` entries of the iteration; run the
collection loop; a deserialization error aborts with `Err` before
anything is written; otherwise write the JSON 200 response of the
collected mails. -/
def get_mails_handler (request : Request) (db : Db) : HttpResult :=
  match parseUsize ((mapGet request.query "limit").getD "10") with
  | none => HttpResult.panicked
  | some limit =>
      match parseUsize ((mapGet request.query "offset").getD "0") with
      | none => HttpResult.panicked
      | some offset =>
          match listLoop limit (db.drop offset) 0 with
          | Except.error _ => HttpResult.errored
          | Except.ok mails => HttpResult.wrote (jsonResponse (mailsToJson mails))

/-- Dispatch through the handler registered in `build_routes`. -/
def runHandler : HandlerTag → Request → Db → HttpResult
  | HandlerTag.getMail, request, db => get_mail_handler request db
  | HandlerTag.deleteMail, request, db => delete_mail_handler request db
  | HandlerTag.getMails, request, db => get_mails_handler request db

/-- The routing step of `handle_client` (`src/http.rs:111-124`): find the
handler, build the `Request` and run it; with no matching route write a
404 with empty body. -/
def dispatchRoute (method : Method) (path : String) (query_pairs : List (String × String))
    (db : Db) : HttpResult :=
  match find_handler build_routes method path with
  | some (handler, params) =>
      runHandler handler
        { method := method, path := path, query := query_pairs, params := params } db
  | none => HttpResult.wrote [notFoundResponse]

/-- The access gate of `handle_client` (`src/http.rs:98-109`): a missing
`k` query parameter and a `k` different from the configured secret both
shut the connection down with zero bytes written; only an exact match
proceeds to routing. -/
def gateAndRoute (method : Method) (path : String) (query_pairs : List (String × String))
    (key : String) (db : Db) : HttpResult :=
  match mapGet query_pairs "k" with
  | some k => if k = key then dispatchRoute method path query_pairs db else HttpResult.silentClose
  | none => HttpResult.silentClose

/-- `handle_client` (`src/http.rs:58-133`) after the request line has been
read (a connection that closes before sending anything returns early and
is outside this model): trim the line, split on whitespace into method
token and path+query token (the version token is discarded); fewer than
two tokens write exactly a 400; an unrecognised method token shuts the
connection down with zero bytes; otherwise parse the URL, run the access
gate and dispatch. -/
def handle_client (line : String) (key : String) (db : Db) : HttpResult :=
  match (splitWhitespace (trimEnd line))[0]?, (splitWhitespace (trimEnd line))[1]? with
  | some method_str, some path_and_query =>
      match Method.from_str method_str with
      | none => HttpResult.silentClose
      | some method =>
          gateAndRoute method (parseUrl path_and_query).1 (parseUrl path_and_query).2 key db
  | _, _ => HttpResult.wrote [badRequestResponse]

/-- Modelled from the spec: the path matcher as the spec's words describe
it for claim comparison — "removes exactly one trailing separator from
each side (when present)" before splitting, in contrast to the source's
`trim_end_matches('/')` which removes every trailing separator. -/
def trimOneTrailingSlash (l : List Char) : List Char :=
  match l.reverse with
  | '/' :: rest => rest.reverse
  | _ => l

/-- Modelled from the spec: `match_path` with the spec's one-separator
trim, otherwise identical to the source's `match_path`. -/
def match_path_spec (route_path request_path : String) : Option (List (String × String)) :=
  if (splitOnChar '/' (trimOneTrailingSlash route_path.toList)).length
      ≠ (splitOnChar '/' (trimOneTrailingSlash request_path.toList)).length then
    none
  else
    matchLoop
      ((splitOnChar '/' (trimOneTrailingSlash route_path.toList)).zip
        (splitOnChar '/' (trimOneTrailingSlash request_path.toList)))
      []

/-- A concrete mail used by counterexamples. -/
def exampleMail : Mail :=
  { id := "a", «from» := "from@x", «to» := ["to@y"], subject := "subj",
    body := "hello", received_at := 0 }

/-! ### Helper lemmas -/

/-- Unfolding `splitAux` at a separator character. -/
theorem splitAux_cons_sep (c : Char) (l : List Char) :
    splitAux c (c :: l) = ([], (splitAux c l).1 :: (splitAux c l).2) := by
  simp [splitAux]

/-- Unfolding `splitAux` at a non-separator character. -/
theorem splitAux_cons_of_ne (c a : Char) (l : List Char) (h : a ≠ c) :
    splitAux c (a :: l) = ((splitAux c l).1.cons a, (splitAux c l).2) := by
  simp [splitAux, h]

/-- A list without the separator is a single segment. -/
theorem splitAux_of_not_mem (c : Char) (l : List Char) (h : c ∉ l) :
    splitAux c l = (l, []) := by
  induction l with
  | nil => rfl
  | cons a l ih =>
      have ha : a ≠ c := by
        intro hac
        exact h (hac ▸ List.mem_cons_self a l)
      rw [splitAux_cons_of_ne c a l ha, ih (fun hm => h (List.mem_cons_of_mem a hm))]

/-- Trailing-trim does nothing when the appended suffix is nonempty and
free of characters satisfying the predicate. -/
theorem dropTrailing_append_of_all (p : Char → Bool) (a b : List Char) (hne : b ≠ [])
    (hall : ∀ x ∈ b, p x = false) : dropTrailing p (a ++ b) = a ++ b := by
  unfold dropTrailing
  obtain ⟨c, cs, hrev⟩ : ∃ c cs, b.reverse = c :: cs := by
    cases hr : b.reverse with
    | nil => exact absurd (List.reverse_eq_nil_iff.mp hr) hne
    | cons c cs => exact ⟨c, cs, rfl⟩
  have hc : c ∈ b := by
    rw [← List.mem_reverse, hrev]
    exact List.mem_cons_self c cs
  rw [List.reverse_append, hrev, List.cons_append,
    List.dropWhile_cons_of_neg (by simp [hall c hc]), ← List.cons_append, ← hrev,
    ← List.reverse_append, List.reverse_reverse]

/-- Trailing-trim absorbs one appended character satisfying the predicate. -/
theorem dropTrailing_concat_of_pos (p : Char → Bool) (l : List Char) (c : Char)
    (hc : p c = true) : dropTrailing p (l ++ [c]) = dropTrailing p l := by
  unfold dropTrailing
  rw [List.reverse_append]
  simp only [List.reverse_cons, List.reverse_nil, List.nil_append, List.singleton_append]
  rw [List.dropWhile_cons_of_pos hc]

/-- When every entry of the visited window decodes, the collection loop of
`get_mails_handler` succeeds with exactly the decoded window.  The window
visited from counter state `count` is `max (limit - count) 1` entries long:
the loop checks `count >= limit` only after pushing a record. -/
theorem listLoop_ok (limit : Nat) :
    ∀ (entries : List (String × StoredVal)) (count : Nat),
      (∀ e ∈ entries.take (max (limit - count) 1), (e.2).isSome = true) →
      listLoop limit entries count =
        Except.ok ((entries.take (max (limit - count) 1)).filterMap (fun e => e.2)) := by
  intro entries
  induction entries with
  | nil =>
      intro count _
      simp [listLoop]
  | cons e rest ih =>
      intro count h
      have hmem : e ∈ (e :: rest).take (max (limit - count) 1) := by
        rw [List.take_cons (by omega)]
        exact List.mem_cons_self e _
      obtain ⟨m, hm⟩ := Option.isSome_iff_exists.mp (h e hmem)
      unfold listLoop
      rw [hm]
      simp only [deserializeMail]
      by_cases hbreak : count + 1 ≥ limit
      · rw [if_pos hbreak]
        have hw : max (limit - count) 1 = 1 := by omega
        rw [hw]
        simp [List.take_cons, hm]
      · rw [if_neg hbreak]
        have hw : max (limit - count) 1 = limit - count := by omega
        have hw' : max (limit - (count + 1)) 1 = limit - count - 1 := by omega
        rw [ih (count + 1) ?_]
        · rw [hw', hw, List.take_cons (by omega)]
          simp [hm]
        · intro e' he'
          refine h e' ?_
          rw [hw, List.take_cons (by omega)]
          rw [hw'] at he'
          exact List.mem_cons_of_mem e he'

/-- If some entry of the visited window fails to decode, the collection
loop of `get_mails_handler` aborts with an error. -/
theorem listLoop_err (limit : Nat) :
    ∀ (entries : List (String × StoredVal)) (count : Nat),
      (∃ e ∈ entries.take (max (limit - count) 1), e.2 = (none : StoredVal)) →
      listLoop limit entries count = Except.error () := by
  intro entries
  induction entries with
  | nil =>
      intro count h
      simp at h
  | cons e rest ih =>
      intro count h
      cases he : e.2 with
      | none =>
          unfold listLoop
          rw [he]
          rfl
      | some m =>
          obtain ⟨e', he', hbad⟩ := h
          rw [List.take_cons (by omega)] at he'
          have hw1 : ¬ max (limit - count) 1 = 1 := by
            intro hw
            rw [hw] at he'
            simp at he'
            rw [he'] at hbad
            rw [he] at hbad
            exact Option.noConfusion hbad
          have hgt : limit - count ≥ 2 := by omega
          have he'' : e' ∈ rest.take (max (limit - (count + 1)) 1) := by
            have harith : max (limit - (count + 1)) 1 = max (limit - count) 1 - 1 := by omega
            rw [harith]
            cases he' with
            | head => exact absurd (by rw [he] at hbad; exact hbad) (by simp)
            | tail _ hmem => exact hmem
          unfold listLoop
          rw [he]
          simp only [deserializeMail]
          rw [if_neg (by omega), ih (count + 1) ⟨e', he'', hbad⟩]

/-- `find_handler` skips a block of routes none of which fires and then
returns the first firing route, regardless of later routes. -/
theorem find_handler_append (rs₁ rs₂ : List (Method × String × HandlerTag)) (m : Method)
    (rp : String) (h : HandlerTag) (path : String) (ps : List (String × String))
    (hnone : find_handler rs₁ m path = none) (hmp : match_path rp path = some ps) :
    find_handler (rs₁ ++ (m, rp, h) :: rs₂) m path = some (h, ps) := by
  induction rs₁ with
  | nil =>
      rw [List.nil_append]
      unfold find_handler
      rw [if_pos rfl, hmp]
  | cons r rs₁ ih =>
      obtain ⟨rm, rp', h'⟩ := r
      rw [List.cons_append]
      unfold find_handler at hnone ⊢
      by_cases hm : m = rm
      · rw [if_pos hm] at hnone ⊢
        cases hmp' : match_path rp' path with
        | some ps' =>
            rw [hmp'] at hnone
            exact Option.noConfusion hnone
        | none =>
            rw [hmp'] at hnone
            exact ih hnone
      · rw [if_neg hm] at hnone ⊢
        exact ih hnone

/-! ### Claim theorems -/

/-- C7: every request line that splits into fewer than two whitespace
tokens — including an empty request line — makes the engine write exactly
one bad-request status chunk with empty body as its entire response. -/
theorem C7_malformed_bad_request :
    (∀ (line key : String) (db : Db),
        (splitWhitespace (trimEnd line)).length < 2 →
        handle_client line key db = HttpResult.wrote [badRequestResponse]) ∧
    (∀ (key : String) (db : Db),
        handle_client "" key db = HttpResult.wrote [badRequestResponse]) := by
  constructor
  · intro line key db h
    have h1 : (splitWhitespace (trimEnd line))[1]? = none :=
      List.getElem?_eq_none (by omega)
    unfold handle_client
    cases h0 : (splitWhitespace (trimEnd line))[0]? with
    | none => rw [h1]
    | some ms => rw [h1]
  · intro key db
    rfl

/-- C7 witness: a one-token request line gets exactly the bad-request
response. -/
theorem C7_malformed_bad_request_witness :
    handle_client "GET" "secret" [] = HttpResult.wrote [badRequestResponse] :=
  C7_malformed_bad_request.1 "GET" "secret" [] (by decide)

/-- C6: a request line whose (well-formed, two-token) first token is not a
recognised method closes the connection with zero response bytes, whatever
the secret, query string or database — so before the access gate and
before the query is consulted; a malformed line, by contrast, gets a
written bad-request response, which is observably distinct. -/
theorem C6_unknown_method_silent_close :
    (∀ (line key : String) (db : Db) (ms pq : String),
        (splitWhitespace (trimEnd line))[0]? = some ms →
        (splitWhitespace (trimEnd line))[1]? = some pq →
        Method.from_str ms = none →
        handle_client line key db = HttpResult.silentClose ∧
        bytesWritten (handle_client line key db) = 0) ∧
    (∀ (line key : String) (db : Db),
        (splitWhitespace (trimEnd line))[1]? = none →
        handle_client line key db = HttpResult.wrote [badRequestResponse]) ∧
    HttpResult.wrote [badRequestResponse] ≠ HttpResult.silentClose := by
  refine ⟨?_, ?_, by simp⟩
  · intro line key db ms pq h0 h1 hm
    have hres : handle_client line key db = HttpResult.silentClose := by
      unfold handle_client
      rw [h0, h1]
      simp only [hm]
    exact ⟨hres, by rw [hres]; rfl⟩
  · intro line key db h1
    unfold handle_client
    cases h0 : (splitWhitespace (trimEnd line))[0]? with
    | none => rw [h1]
    | some ms => rw [h1]

/-- C6 witness: `PATCH` is not a recognised method, so the connection is
closed with zero bytes written, while a one-token line still gets the
bad-request response. -/
theorem C6_unknown_method_silent_close_witness :
    (handle_client "PATCH /mails?k=secret HTTP/1.1" "secret" [] = HttpResult.silentClose ∧
      bytesWritten (handle_client "PATCH /mails?k=secret HTTP/1.1" "secret" []) = 0) ∧
    handle_client "PATCH" "secret" [] = HttpResult.wrote [badRequestResponse] :=
  ⟨C6_unknown_method_silent_close.1 "PATCH /mails?k=secret HTTP/1.1" "secret" []
      "PATCH" "/mails?k=secret" rfl rfl rfl,
    C6_unknown_method_silent_close.2.1 "PATCH" "secret" [] rfl⟩

/-- C10: an authorized list request whose `limit` or `offset` query
parameter is present but fails `parse::<usize>()` makes
`get_mails_handler` panic on `unwrap()`, so neither a success nor a
bad-request response is produced. -/
theorem C10_bad_pagination_param_panics (request : Request) (db : Db) (s : String)
    (hp : mapGet request.query "limit" = some s ∨ mapGet request.query "offset" = some s)
    (hparse : parseUsize s = none) :
    get_mails_handler request db = HttpResult.panicked := by
  unfold get_mails_handler
  cases hp with
  | inl hl =>
      rw [hl, Option.getD_some, hparse]
  | inr ho =>
      cases hlim : parseUsize ((mapGet request.query "limit").getD "10") with
      | none => rfl
      | some limit =>
          rw [ho, Option.getD_some, hparse]

/-- C10 witness: `limit=abc` panics the list handler. -/
theorem C10_bad_pagination_param_panics_witness :
    get_mails_handler
      { method := Method.GET, path := "/mails", query := [("limit", "abc")], params := [] }
      [] = HttpResult.panicked :=
  C10_bad_pagination_param_panics _ [] "abc" (Or.inl rfl) rfl

/-- C9: the delete handler reports success exactly when the underlying
`Db::remove` result is `Ok`, and not-found exactly when it is an error —
independent of prior key existence; in the I/O-failure-free model,
deleting an id that is not in the store still reports success with an
empty body. -/
theorem C9_delete_reports_store_outcome :
    (∀ result : Except IoError (Option StoredVal),
        (delete_mail_response result = [okEmptyResponse] ↔ is_ok result = true) ∧
        (delete_mail_response result = [notFoundResponse] ↔ is_ok result = false)) ∧
    (∀ (db : Db) (request : Request) (id : String),
        mapGet request.params "mail_id" = some id →
        Db.get db id = none →
        delete_mail_handler request db = HttpResult.wrote [okEmptyResponse]) := by
  constructor
  · intro result
    cases result with
    | ok v =>
        refine ⟨⟨fun _ => rfl, fun _ => rfl⟩, ?_, ?_⟩
        · intro h
          exact absurd h (by simp [delete_mail_response, is_ok]; decide)
        · intro h
          exact absurd h (by simp [is_ok])
    | error e =>
        refine ⟨⟨?_, ?_⟩, ⟨fun _ => rfl, fun _ => rfl⟩⟩
        · intro h
          exact absurd h (by simp [delete_mail_response, is_ok]; decide)
        · intro h
          exact absurd h (by simp [is_ok])
  · intro db request id hid _hnone
    unfold delete_mail_handler
    rw [hid]
    rfl

/-- C9 witness: an I/O failure is the only way to the 404 branch, and
deleting an id absent from an empty store reports success. -/
theorem C9_delete_reports_store_outcome_witness :
    (delete_mail_response (Except.error IoError.ioFailure) = [notFoundResponse]) ∧
    delete_mail_handler
      { method := Method.DELETE, path := "/mails/zzz", query := [],
        params := [("mail_id", "zzz")] } [] = HttpResult.wrote [okEmptyResponse] :=
  ⟨(C9_delete_reports_store_outcome.1 (Except.error IoError.ioFailure)).2.mpr rfl,
    C9_delete_reports_store_outcome.2 [] _ "zzz" rfl rfl⟩

/-- C1: for every well-formed request (two tokens, recognised method),
whatever the path and the database, a query without `k` and a query whose
`k` differs from the secret both close the connection with zero response
bytes, and the two failure outcomes are identical — the gate acts before
any route dispatch. -/
theorem C1_access_gate_silent_close
    (line₁ line₂ key : String) (db₁ db₂ : Db)
    (ms₁ pq₁ ms₂ pq₂ v₂ : String) (m₁ m₂ : Method)
    (h10 : (splitWhitespace (trimEnd line₁))[0]? = some ms₁)
    (h11 : (splitWhitespace (trimEnd line₁))[1]? = some pq₁)
    (h1m : Method.from_str ms₁ = some m₁)
    (h1k : mapGet (parseUrl pq₁).2 "k" = none)
    (h20 : (splitWhitespace (trimEnd line₂))[0]? = some ms₂)
    (h21 : (splitWhitespace (trimEnd line₂))[1]? = some pq₂)
    (h2m : Method.from_str ms₂ = some m₂)
    (h2k : mapGet (parseUrl pq₂).2 "k" = some v₂)
    (h2v : v₂ ≠ key) :
    handle_client line₁ key db₁ = HttpResult.silentClose ∧
    handle_client line₂ key db₂ = HttpResult.silentClose ∧
    handle_client line₁ key db₁ = handle_client line₂ key db₂ ∧
    bytesWritten (handle_client line₁ key db₁) = 0 ∧
    bytesWritten (handle_client line₂ key db₂) = 0 := by
  have e₁ : handle_client line₁ key db₁ = HttpResult.silentClose := by
    unfold handle_client
    rw [h10, h11]
    simp only [h1m]
    unfold gateAndRoute
    rw [h1k]
  have e₂ : handle_client line₂ key db₂ = HttpResult.silentClose := by
    unfold handle_client
    rw [h20, h21]
    simp only [h2m]
    unfold gateAndRoute
    rw [h2k]
    simp only [if_neg h2v]
  exact ⟨e₁, e₂, e₁.trans e₂.symm, by rw [e₁]; rfl, by rw [e₂]; rfl⟩

/-- C1 witness: a request without `k` and a request with a wrong `k` both
close with zero bytes, indistinguishably, on an arbitrary route. -/
theorem C1_access_gate_silent_close_witness :
    handle_client "GET /mails HTTP/1.1" "secret" [] = HttpResult.silentClose ∧
    handle_client "GET /mails?k=wrong HTTP/1.1" "secret" [] = HttpResult.silentClose ∧
    handle_client "GET /mails HTTP/1.1" "secret" [] =
      handle_client "GET /mails?k=wrong HTTP/1.1" "secret" [] ∧
    bytesWritten (handle_client "GET /mails HTTP/1.1" "secret" []) = 0 ∧
    bytesWritten (handle_client "GET /mails?k=wrong HTTP/1.1" "secret" []) = 0 :=
  C1_access_gate_silent_close "GET /mails HTTP/1.1" "GET /mails?k=wrong HTTP/1.1"
    "secret" [] [] "GET" "/mails" "GET" "/mails?k=wrong" "wrong" Method.GET Method.GET
    rfl rfl rfl rfl rfl rfl rfl rfl (by decide)

/-- C5: routes are tried in registration order and the first route whose
method and pattern both fire wins, regardless of any later routes; when no
registered route of the request's method matches, the engine writes a
not-found status with empty body — including when the method has no routes
at all while other methods do, as for `PUT` against `build_routes`. -/
theorem C5_first_match_wins :
    (∀ (rs₁ rs₂ : List (Method × String × HandlerTag)) (m : Method) (rp : String)
        (h : HandlerTag) (path : String) (ps : List (String × String)),
        find_handler rs₁ m path = none → match_path rp path = some ps →
        find_handler (rs₁ ++ (m, rp, h) :: rs₂) m path = some (h, ps)) ∧
    (∀ (m : Method) (path : String) (q : List (String × String)) (db : Db),
        find_handler build_routes m path = none →
        dispatchRoute m path q db = HttpResult.wrote [notFoundResponse]) ∧
    (∀ db : Db,
        handle_client "PUT /mails?k=secret HTTP/1.1" "secret" db =
          HttpResult.wrote [notFoundResponse]) := by
  refine ⟨find_handler_append, ?_, ?_⟩
  · intro m path q db h
    unfold dispatchRoute
    rw [h]
  · intro db
    rfl

/-- C5 witness: the `GET /mails` route fires after the earlier routes
decline, an unmatched `POST` dispatch writes the 404, and an authorized
`PUT` request (a method with no routes) gets exactly the 404 response. -/
theorem C5_first_match_wins_witness :
    find_handler
      ([(Method.DELETE, "/mails/:mail_id", HandlerTag.deleteMail)] ++
        (Method.GET, "/mails", HandlerTag.getMails) :: []) Method.GET "/mails" =
      some (HandlerTag.getMails, []) ∧
    dispatchRoute Method.POST "/mails" [] [] = HttpResult.wrote [notFoundResponse] ∧
    handle_client "PUT /mails?k=secret HTTP/1.1" "secret" [] =
      HttpResult.wrote [notFoundResponse] :=
  ⟨C5_first_match_wins.1 [(Method.DELETE, "/mails/:mail_id", HandlerTag.deleteMail)] []
      Method.GET "/mails" HandlerTag.getMails "/mails" [] rfl rfl,
    C5_first_match_wins.2.1 Method.POST "/mails" [] [] rfl,
    C5_first_match_wins.2.2 []⟩

/-- C8: if any entry of the window visited by an authorized listing —
after the offset skip and within the limit window — carries a value on
which deserialization fails, `get_mails_handler` aborts with an error:
no success response and no partial sequence, zero bytes written. -/
theorem C8_decode_failure_aborts_listing (request : Request) (db : Db) (limit offset : Nat)
    (hl : parseUsize ((mapGet request.query "limit").getD "10") = some limit)
    (ho : parseUsize ((mapGet request.query "offset").getD "0") = some offset)
    (hbad : ∃ e ∈ (db.drop offset).take limit, e.2 = (none : StoredVal)) :
    get_mails_handler request db = HttpResult.errored ∧
    bytesWritten (get_mails_handler request db) = 0 := by
  have hwin : ∃ e ∈ (db.drop offset).take (max (limit - 0) 1), e.2 = (none : StoredVal) := by
    obtain ⟨e, he, hnone⟩ := hbad
    refine ⟨e, ?_, hnone⟩
    have hsub : ((db.drop offset).take (max (limit - 0) 1)).take limit =
        (db.drop offset).take limit := by
      rw [List.take_take]
      congr 1
      omega
    rw [← hsub] at he
    exact List.take_subset _ _ he
  have hloop := listLoop_err limit (db.drop offset) 0 hwin
  have hres : get_mails_handler request db = HttpResult.errored := by
    unfold get_mails_handler
    rw [hl, ho]
    simp only [hloop]
  exact ⟨hres, by rw [hres]; rfl⟩

/-- C8 witness: a corrupt record inside the window aborts the listing. -/
theorem C8_decode_failure_aborts_listing_witness :
    get_mails_handler
      { method := Method.GET, path := "/mails", query := [("limit", "2")], params := [] }
      [("a", some exampleMail), ("b", none)] = HttpResult.errored ∧
    bytesWritten
      (get_mails_handler
        { method := Method.GET, path := "/mails", query := [("limit", "2")], params := [] }
        [("a", some exampleMail), ("b", none)]) = 0 :=
  C8_decode_failure_aborts_listing _ [("a", some exampleMail), ("b", none)] 2 0 rfl rfl
    ⟨("b", none), by decide, rfl⟩

/-- C2 (amended): the listing skips the first `offset` entries of the
iteration and collects up to `limit` entries in order whenever the parsed
`limit` is at least 1 (the claim's unrestricted "up to limit" fails at
`limit = 0`, which still collects one entry — see the counterexample);
absent `limit` and `offset` parameters behave as the parsed defaults 10
and 0; in particular a 10-entry store listed with `limit=3&offset=5`
yields exactly the 6th, 7th and 8th records, in order, as one success
payload. -/
theorem C2_pagination_window :
    (∀ (request : Request) (db : Db) (limit offset : Nat),
        parseUsize ((mapGet request.query "limit").getD "10") = some limit →
        parseUsize ((mapGet request.query "offset").getD "0") = some offset →
        1 ≤ limit →
        (∀ e ∈ (db.drop offset).take limit, (e.2).isSome = true) →
        get_mails_handler request db =
          HttpResult.wrote (jsonResponse (mailsToJson
            (((db.drop offset).take limit).filterMap (fun e => e.2))))) ∧
    (∀ (request : Request) (db : Db),
        mapGet request.query "limit" = none →
        mapGet request.query "offset" = none →
        (∀ e ∈ db.take 10, (e.2).isSome = true) →
        get_mails_handler request db =
          HttpResult.wrote (jsonResponse (mailsToJson
            ((db.take 10).filterMap (fun e => e.2))))) ∧
    (∀ (request : Request) (k₁ k₂ k₃ k₄ k₅ k₆ k₇ k₈ k₉ k₁₀ : String)
        (m₁ m₂ m₃ m₄ m₅ m₆ m₇ m₈ m₉ m₁₀ : Mail),
        mapGet request.query "limit" = some "3" →
        mapGet request.query "offset" = some "5" →
        get_mails_handler request
          [(k₁, some m₁), (k₂, some m₂), (k₃, some m₃), (k₄, some m₄), (k₅, some m₅),
           (k₆, some m₆), (k₇, some m₇), (k₈, some m₈), (k₉, some m₉), (k₁₀, some m₁₀)] =
          HttpResult.wrote (jsonResponse (mailsToJson [m₆, m₇, m₈]))) := by
  have core : ∀ (request : Request) (db : Db) (limit offset : Nat),
      parseUsize ((mapGet request.query "limit").getD "10") = some limit →
      parseUsize ((mapGet request.query "offset").getD "0") = some offset →
      1 ≤ limit →
      (∀ e ∈ (db.drop offset).take limit, (e.2).isSome = true) →
      get_mails_handler request db =
        HttpResult.wrote (jsonResponse (mailsToJson
          (((db.drop offset).take limit).filterMap (fun e => e.2)))) := by
    intro request db limit offset hl ho hpos hall
    have hw : max (limit - 0) 1 = limit := by omega
    have hloop := listLoop_ok limit (db.drop offset) 0 (by rw [hw]; exact hall)
    rw [hw] at hloop
    unfold get_mails_handler
    rw [hl, ho]
    simp only [hloop]
  refine ⟨core, ?_, ?_⟩
  · intro request db hlnone honone hall
    have hl : parseUsize ((mapGet request.query "limit").getD "10") = some 10 := by
      rw [hlnone]
      rfl
    have ho : parseUsize ((mapGet request.query "offset").getD "0") = some 0 := by
      rw [honone]
      rfl
    have := core request db 10 0 hl ho (by omega) (by rw [List.drop_zero]; exact hall)
    rw [List.drop_zero] at this
    exact this
  · intro request k₁ k₂ k₃ k₄ k₅ k₆ k₇ k₈ k₉ k₁₀ m₁ m₂ m₃ m₄ m₅ m₆ m₇ m₈ m₉ m₁₀ hl ho
    have h3 : parseUsize ((mapGet request.query "limit").getD "10") = some 3 := by
      rw [hl]
      rfl
    have h5 : parseUsize ((mapGet request.query "offset").getD "0") = some 5 := by
      rw [ho]
      rfl
    have := core request
      [(k₁, some m₁), (k₂, some m₂), (k₃, some m₃), (k₄, some m₄), (k₅, some m₅),
       (k₆, some m₆), (k₇, some m₇), (k₈, some m₈), (k₉, some m₉), (k₁₀, some m₁₀)]
      3 5 h3 h5 (by omega) (by intro e he; simp at he; rcases he with h | h | h <;> simp [h])
    simpa using this

/-- C2 witness: the three parts at concrete stores. -/
theorem C2_pagination_window_witness :
    get_mails_handler
      { method := Method.GET, path := "/mails",
        query := [("limit", "3"), ("offset", "5")], params := [] }
      [("k1", some exampleMail), ("k2", some exampleMail), ("k3", some exampleMail),
       ("k4", some exampleMail), ("k5", some exampleMail), ("k6", some exampleMail),
       ("k7", some exampleMail), ("k8", some exampleMail), ("k9", some exampleMail),
       ("k10", some exampleMail)] =
      HttpResult.wrote (jsonResponse (mailsToJson [exampleMail, exampleMail, exampleMail])) ∧
    get_mails_handler
      { method := Method.GET, path := "/mails", query := [], params := [] }
      [("a", some exampleMail)] =
      HttpResult.wrote (jsonResponse (mailsToJson
        (([("a", some exampleMail)] : Db).take 10 |>.filterMap (fun e => e.2)))) ∧
    get_mails_handler
      { method := Method.GET, path := "/mails", query := [("limit", "1")], params := [] }
      [("a", some exampleMail), ("b", some exampleMail)] =
      HttpResult.wrote (jsonResponse (mailsToJson
        ((([("a", some exampleMail), ("b", some exampleMail)] : Db).drop 0).take 1
          |>.filterMap (fun e => e.2)))) :=
  ⟨C2_pagination_window.2.2 _ "k1" "k2" "k3" "k4" "k5" "k6" "k7" "k8" "k9" "k10"
      exampleMail exampleMail exampleMail exampleMail exampleMail exampleMail
      exampleMail exampleMail exampleMail exampleMail rfl rfl,
    C2_pagination_window.2.1 _ [("a", some exampleMail)] rfl rfl (by decide),
    C2_pagination_window.1 _ [("a", some exampleMail), ("b", some exampleMail)] 1 0
      rfl rfl (by omega) (by decide)⟩

/-- C2 counterexample: an authorized listing with `limit=0` over a
one-entry store returns that one record — not "up to limit" (zero)
entries — because the loop pushes a record before checking the counter. -/
theorem C2_limit_zero_counterexample :
    handle_client "GET /mails?k=s&limit=0 HTTP/1.1" "s" [("a", some exampleMail)] =
      HttpResult.wrote (jsonResponse (mailsToJson [exampleMail])) ∧
    jsonResponse (mailsToJson [exampleMail]) ≠ jsonResponse (mailsToJson []) :=
  ⟨rfl, by decide⟩

/-- Splitting `"/mails/" ++ x` on `/` after the trailing trim, for a
nonempty final segment `x` containing no separator. -/
theorem splitSlash_mails_concat (x : String) (hne : x.toList ≠ [])
    (hns : ('/' : Char) ∉ x.toList) :
    splitOnChar '/' (dropTrailing (fun c => c = '/') ("/mails/" ++ x).toList) =
      [[], ['m', 'a', 'i', 'l', 's'], x.toList] := by
  have hall : ∀ ch ∈ x.toList, (fun c => decide (c = '/')) ch = false := by
    intro ch hch
    exact decide_eq_false (fun h => hns (h ▸ hch))
  have hlist : ("/mails/" ++ x).toList = ['/', 'm', 'a', 'i', 'l', 's', '/'] ++ x.toList := by
    simp [String.toList]
  rw [hlist, dropTrailing_append_of_all _ _ _ hne hall]
  unfold splitOnChar
  simp only [List.cons_append, List.nil_append]
  rw [splitAux_cons_sep]
  rw [splitAux_cons_of_ne '/' 'm' _ (by decide)]
  rw [splitAux_cons_of_ne '/' 'a' _ (by decide)]
  rw [splitAux_cons_of_ne '/' 'i' _ (by decide)]
  rw [splitAux_cons_of_ne '/' 'l' _ (by decide)]
  rw [splitAux_cons_of_ne '/' 's' _ (by decide)]
  rw [splitAux_cons_sep]
  rw [splitAux_of_not_mem '/' x.toList hns]

/-- C3: a pattern segment starting with the `:` marker binds the request
segment's raw value under the name after the marker while literal segments
must match exactly: `/mails/:mail_id` matched against `/mails/` followed
by any nonempty separator-free segment `x` yields the parameter map
`{mail_id: x}` — in particular `{mail_id: "42"}` for `/mails/42` — and
matched against `/mails/42/x` (one segment too many) yields no match. -/
theorem C3_path_param_binding :
    (∀ x : String, x.toList ≠ [] → ('/' : Char) ∉ x.toList →
        match_path "/mails/:mail_id" ("/mails/" ++ x) = some [("mail_id", x)]) ∧
    match_path "/mails/:mail_id" "/mails/42/x" = none := by
  refine ⟨?_, rfl⟩
  intro x hne hns
  have hreq := splitSlash_mails_concat x hne hns
  unfold match_path
  rw [hreq]
  rfl

/-- C3 witness: the claim's concrete instance `mail_id ↦ "42"`. -/
theorem C3_path_param_binding_witness :
    match_path "/mails/:mail_id" ("/mails/" ++ "42") = some [("mail_id", "42")] :=
  C3_path_param_binding.1 "42" (by decide) (by decide)

/-- C4 (amended): `match_path` removes every trailing separator from each
side — not exactly one — before splitting and requiring equal segment
counts, so extra trailing separators are dropped rather than kept as
segments: appending a `/` to either side never changes the outcome, and a
segment-count mismatch after the full trim yields no match. -/
theorem C4_trailing_slash_trim :
    (∀ route path : String, match_path route (path ++ "/") = match_path route path) ∧
    (∀ route path : String, match_path (route ++ "/") path = match_path route path) ∧
    (∀ route path : String,
        (splitOnChar '/' (dropTrailing (fun c => c = '/') route.toList)).length ≠
          (splitOnChar '/' (dropTrailing (fun c => c = '/') path.toList)).length →
        match_path route path = none) := by
  refine ⟨?_, ?_, ?_⟩
  · intro route path
    unfold match_path
    rw [show (path ++ "/").toList = path.toList ++ ['/'] by simp [String.toList],
      dropTrailing_concat_of_pos _ path.toList '/' (by decide)]
  · intro route path
    unfold match_path
    rw [show (route ++ "/").toList = route.toList ++ ['/'] by simp [String.toList],
      dropTrailing_concat_of_pos _ route.toList '/' (by decide)]
  · intro route path h
    unfold match_path
    rw [if_pos h]

/-- C4 witness: a redundant trailing slash is invisible to matching, and a
genuine segment-count mismatch yields no match. -/
theorem C4_trailing_slash_trim_witness :
    match_path "/mails" ("/mails" ++ "/") = match_path "/mails" "/mails" ∧
    match_path "/a" "/a/b" = none :=
  ⟨C4_trailing_slash_trim.1 "/mails" "/mails",
    C4_trailing_slash_trim.2.2 "/a" "/a/b" (by decide)⟩

/-- C4 counterexample: against the pattern `/mails`, the path `/mails//`
(two trailing separators) matches in the source — all trailing separators
are removed — while the spec's one-separator trim (`match_path_spec`)
would reject it because the leftover empty segment changes the count. -/
theorem C4_one_trim_counterexample :
    match_path "/mails" "/mails//" = some [] ∧
    match_path_spec "/mails" "/mails//" = none :=
  ⟨rfl, rfl⟩
